import Mathlib

/-!
Verification of the news-query retrieval engine (embedder, vector index,
retrieval engine, token analytics) against its specification.

The Python sources are shallowly embedded: dictionaries of optional string
fields become structures of `Option String`, numpy float vectors become
`List ℚ`, and the ChromaDB collection becomes a `List StoredRecord` kept in
insertion order.  Operations of the ChromaDB / SentenceTransformer libraries
that are not part of the repository are modelled from the specification and
marked as such in their doc comments.
-/

set_option maxHeartbeats 1000000

namespace NewsQuery

/-! ## Data model -/

/-- Metadata stored with each record (src/retrieval.py, add_documents):
title, description, link, published, all defaulted to the empty string. -/
structure Metadata where
  title : String
  description : String
  link : String
  published : String
deriving DecidableEq

/-- A record stored in the ChromaDB collection: id, document text, embedding
vector and metadata. -/
structure StoredRecord where
  id : String
  document : String
  embedding : List ℚ
  metadata : Metadata
deriving DecidableEq

/-- A raw article dictionary as produced by the feed parser: every field is
optional (Python dict `.get`). -/
structure Article where
  title : Option String := none
  description : Option String := none
  link : Option String := none
  published : Option String := none
deriving DecidableEq

/-- An article dictionary as passed to `add_documents`: the raw fields plus
the `text` and `embedding` keys added by the embedder. -/
structure EmbeddedArticle where
  title : Option String := none
  description : Option String := none
  link : Option String := none
  published : Option String := none
  text : Option String := none
  embedding : List ℚ := []
deriving DecidableEq

/-! ## NewsRetriever.add_documents (src/retrieval.py lines 47-90) -/

/-- Document text used by `add_documents`:
`article.get("text", f"{title}\n{description}")` with `""` defaults. -/
def articleText (a : EmbeddedArticle) : String :=
  a.text.getD ((a.title.getD "") ++ "\n" ++ (a.description.getD ""))

/-- Metadata built by `add_documents` from an article, `""` defaults. -/
def articleMetadata (a : EmbeddedArticle) : Metadata :=
  { title := a.title.getD ""
    description := a.description.getD ""
    link := a.link.getD ""
    published := a.published.getD "" }

/-- The positional id `f"article_{idx}"` assigned by `add_documents`. -/
def positionalId (idx : Nat) : String :=
  "article_" ++ Nat.repr idx

/-- The stored record built by `add_documents` for the article at batch
position `idx`. -/
def recordOf (idx : Nat) (a : EmbeddedArticle) : StoredRecord :=
  { id := positionalId idx
    document := articleText a
    embedding := a.embedding
    metadata := articleMetadata a }

/-- The batch of records built by the `for idx, article in enumerate(articles)`
loop of `add_documents`. -/
def batchRecords (articles : List EmbeddedArticle) : List StoredRecord :=
  articles.enum.map (fun p => recordOf p.1 p.2)

/-- Modelled from the spec: the ChromaDB `collection.upsert` call for a single
record — "for each record, if `id` exists, replace vector+text+metadata
atomically; if absent, insert".  The ChromaDB implementation is not part of
this repository. -/
def upsertOne (c : List StoredRecord) (r : StoredRecord) : List StoredRecord :=
  if c.any (fun s => s.id = r.id) then
    c.map (fun s => if s.id = r.id then r else s)
  else
    c ++ [r]

/-- Modelled from the spec: batched `collection.upsert`, record by record. -/
def upsert (c : List StoredRecord) (rs : List StoredRecord) : List StoredRecord :=
  rs.foldl upsertOne c

/-- The ids stored in a collection, in insertion order. -/
def ids (c : List StoredRecord) : List String :=
  c.map StoredRecord.id

/-- `collection.get`-style lookup of the record with a given id. -/
def findById (c : List StoredRecord) (i : String) : Option StoredRecord :=
  c.find? (fun s => s.id = i)

/-- The `NewsRetriever` object: collection name, persist directory, and the
(modelled) ChromaDB collection it owns. -/
structure NewsRetriever where
  collection_name : String := "rpp_news"
  persist_directory : String := "./data/chromadb"
  collection : List StoredRecord := []
deriving DecidableEq

/-- A freshly initialized retriever whose collection was just created
(src/retrieval.py `__init__` defaults, new empty collection). -/
def freshRetriever : NewsRetriever :=
  { collection_name := "rpp_news"
    persist_directory := "./data/chromadb"
    collection := [] }

/-- `NewsRetriever.add_documents`: build documents, embeddings, metadatas and
positional ids, then upsert the batch into the collection. -/
def NewsRetriever.add_documents (r : NewsRetriever) (articles : List EmbeddedArticle) :
    NewsRetriever :=
  { r with collection := upsert r.collection (batchRecords articles) }

/-- `collection.count()`: number of stored records. -/
def NewsRetriever.document_count (r : NewsRetriever) : Nat :=
  r.collection.length

/-- The value returned by the Python `add_documents` method: the method body
has no `return` statement, so the call returns `None` (here `none`); typed
against the count the spec says it should return. -/
def NewsRetriever.add_documents_return (r : NewsRetriever)
    (articles : List EmbeddedArticle) : Option Nat :=
  none

/-! ## NewsRetriever.get_collection_stats (src/retrieval.py lines 151-163) -/

/-- A value of the Python stats dictionary: a string or an integer. -/
inductive StatValue where
  | str (s : String)
  | nat (n : Nat)
deriving DecidableEq

/-- `get_collection_stats`: the literal dictionary returned by the source,
as an ordered key-value list. -/
def NewsRetriever.get_collection_stats (r : NewsRetriever) : List (String × StatValue) :=
  [("collection_name", StatValue.str r.collection_name),
   ("document_count", StatValue.nat r.collection.length),
   ("persist_directory", StatValue.str r.persist_directory)]

/-! ## Tokenization (src/tokenization.py) -/

/-- `count_tokens`: length of the tiktoken encoding of the text.  The tiktoken
encoder itself is external, abstracted as a function `encode` from text to a
token list. -/
def count_tokens (encode : String → List Nat) (text : String) : Nat :=
  (encode text).length

/-- Result of `analyze_article_tokens`. -/
structure TokenAnalysis where
  title : String
  title_tokens : Nat
  description_tokens : Nat
  total_tokens : Nat
  full_text : String
deriving DecidableEq

/-- `analyze_article_tokens`: token counts for title, description and the
combined `f"{title}\n{description}"` text. -/
def analyze_article_tokens (encode : String → List Nat) (article : Article) :
    TokenAnalysis :=
  let title := article.title.getD ""
  let description := article.description.getD ""
  let full_text := title ++ "\n" ++ description
  { title := title
    title_tokens := count_tokens encode title
    description_tokens := count_tokens encode description
    total_tokens := count_tokens encode full_text
    full_text := full_text }

/-- Result of `analyze_corpus_tokens`. -/
structure CorpusStats where
  num_articles : Nat
  total_tokens : Nat
  avg_tokens : ℚ
  min_tokens : Nat
  max_tokens : Nat
  token_counts : List Nat
deriving DecidableEq

/-- `analyze_corpus_tokens`: corpus statistics, with the Python
`... if token_counts else 0` guards rendered as matches on the list. -/
def analyze_corpus_tokens (encode : String → List Nat) (articles : List Article) :
    CorpusStats :=
  let token_counts := articles.map
    (fun a => (analyze_article_tokens encode a).total_tokens)
  { num_articles := articles.length
    total_tokens := token_counts.sum
    avg_tokens :=
      match token_counts with
      | [] => 0
      | _ :: _ => (token_counts.sum : ℚ) / (token_counts.length : ℚ)
    min_tokens :=
      match token_counts with
      | [] => 0
      | x :: xs => xs.foldl min x
    max_tokens :=
      match token_counts with
      | [] => 0
      | x :: xs => xs.foldl max x
    token_counts := token_counts }

/-! ## NewsEmbedder (src/embeddings.py) -/

/-- The `NewsEmbedder` object.  The SentenceTransformer model is external;
its single-text encoding is abstracted as the function `encode`. -/
structure NewsEmbedder where
  encode : String → List ℚ

/-- `embed_text`: `model.encode(text)` for a single text. -/
def NewsEmbedder.embed_text (e : NewsEmbedder) (text : String) : List ℚ :=
  e.encode text

/-- Modelled from the spec: batched `model.encode(texts)` of the external
SentenceTransformer — "`embed_many` is guaranteed to be numerically and
dimensionally identical to calling `embed_one` on each text independently". -/
def NewsEmbedder.encodeBatch (e : NewsEmbedder) (texts : List String) :
    List (List ℚ) :=
  texts.map e.encode

/-- `embed_articles`: build `f"{title}\n{description}"` texts, encode them in
batch, and zip the embeddings (and the text) back onto the articles. -/
def NewsEmbedder.embed_articles (e : NewsEmbedder) (articles : List Article) :
    List EmbeddedArticle :=
  let texts := articles.map
    (fun a => (a.title.getD "") ++ "\n" ++ (a.description.getD ""))
  let embeddings := e.encodeBatch texts
  (articles.zip embeddings).map (fun p =>
    { title := p.1.title
      description := p.1.description
      link := p.1.link
      published := p.1.published
      text := some ((p.1.title.getD "") ++ "\n" ++ (p.1.description.getD ""))
      embedding := p.2 })

/-! ## Similarity search (spec §4.2; the ChromaDB query implementation is not
part of this repository and is modelled from the spec) -/

/-- Dot product of two vectors, `dot(a,b)` of the spec's cosine formula. -/
def dot (a b : List ℚ) : ℚ :=
  (List.zipWith (fun x y => x * y) a b).sum

/-- Squared Euclidean norm of a vector. -/
def normSq (a : List ℚ) : ℚ :=
  dot a a

/-- Cosine similarity `dot(a,b) / (norm(a) * norm(b))`, the spec's ranking
score, as a real number. -/
noncomputable def cosineSim (a b : List ℚ) : ℝ :=
  ((dot a b : ℚ) : ℝ) /
    (Real.sqrt ((normSq a : ℚ) : ℝ) * Real.sqrt ((normSq b : ℚ) : ℝ))

/-- Sign-preserving square `t ↦ sign(t)·t²`, a strictly monotone map used to
relate the rational similarity key below to the real cosine similarity. -/
noncomputable def sgnSq (t : ℝ) : ℝ :=
  if 0 ≤ t then t ^ 2 else -(t ^ 2)

/-- A computable rational key that orders stored vectors `e` by their cosine
similarity to the query vector `q`: the sign of `dot e q` times
`dot e q ^ 2 / normSq e`.  For nonzero vectors this is the squared cosine
similarity (times the positive constant `normSq q`) carrying the sign of the
cosine, so comparing keys compares cosine similarities. -/
def simKey (q e : List ℚ) : ℚ :=
  (if 0 ≤ dot e q then dot e q ^ 2 else -(dot e q ^ 2)) / normSq e

/-- Ranking order on insertion-indexed records: strictly greater similarity
key first, ties broken by insertion index (first inserted first). -/
def rankLe (q : List ℚ) (a b : Nat × StoredRecord) : Prop :=
  simKey q b.2.embedding < simKey q a.2.embedding ∨
    (simKey q a.2.embedding = simKey q b.2.embedding ∧ a.1 ≤ b.1)

instance (q : List ℚ) : DecidableRel (rankLe q) := fun a b => by
  unfold rankLe
  exact inferInstance

instance (q : List ℚ) : IsTotal (Nat × StoredRecord) (rankLe q) where
  total a b := by
    rcases lt_trichotomy (simKey q a.2.embedding) (simKey q b.2.embedding) with h | h | h
    · exact Or.inr (Or.inl h)
    · rcases Nat.le_total a.1 b.1 with hab | hba
      · exact Or.inl (Or.inr ⟨h, hab⟩)
      · exact Or.inr (Or.inr ⟨h.symm, hba⟩)
    · exact Or.inl (Or.inl h)

instance (q : List ℚ) : IsTrans (Nat × StoredRecord) (rankLe q) where
  trans a b c hab hbc := by
    rcases hab with hab | ⟨hab, iab⟩
    · rcases hbc with hbc | ⟨hbc, _⟩
      · exact Or.inl (hbc.trans hab)
      · exact Or.inl (hbc ▸ hab)
    · rcases hbc with hbc | ⟨hbc, ibc⟩
      · exact Or.inl (hab ▸ hbc)
      · exact Or.inr ⟨hab.trans hbc, iab.trans ibc⟩

/-- Modelled from the spec: `collection.query(query_embeddings=[q],
n_results=k)` — "returns up to `k` stored records ranked by descending cosine
similarity to `vector` ... ties broken by insertion order (stable,
first-inserted-first)".  Records are tagged with their insertion index,
stably sorted by the ranking order, and truncated to `k`. -/
def queryRanked (c : List StoredRecord) (q : List ℚ) (k : Nat) :
    List (Nat × StoredRecord) :=
  (List.insertionSort (rankLe q) c.enum).take k

/-- The ranked records returned by a `query(vector, k)` call. -/
def queryCollection (c : List StoredRecord) (q : List ℚ) (k : Nat) :
    List StoredRecord :=
  (queryRanked c q k).map Prod.snd

/-- `NewsRetriever.query` with an embedder: embed the query text, then run
the vector query against the collection. -/
def NewsRetriever.query (r : NewsRetriever) (e : NewsEmbedder)
    (query_text : String) (n_results : Nat) : List StoredRecord :=
  queryCollection r.collection (e.embed_text query_text) n_results

/-- The row dictionary built by `query_to_dataframe` for one match
(src/retrieval.py lines 140-145), as an ordered key-value list. -/
def rowOf (m : Metadata) : List (String × String) :=
  [("title", m.title),
   ("description", m.description),
   ("link", m.link),
   ("date_published", m.published)]

/-- `NewsRetriever.query_to_dataframe`: query, then shape each match's
metadata into a row. -/
def query_to_dataframe (c : List StoredRecord) (q : List ℚ) (k : Nat) :
    List (List (String × String)) :=
  (queryCollection c q k).map (fun r => rowOf r.metadata)

/-! ## NewsRetrievalPipeline (src/pipeline.py) -/

/-- A LangChain document: page content plus metadata. -/
structure LCDocument where
  page_content : String
  metadata : Metadata
deriving DecidableEq

/-- The LangChain Chroma vector store, abstracted by its search capability. -/
structure Vectorstore where
  similarity_search : String → Nat → List LCDocument

/-- Errors raised by the pipeline.  `notInitialized` models the
`ValueError("Vector store not initialized. ...")` raised by `query`; the
spec names this condition `NotInitializedError`. -/
inductive PipelineError where
  | notInitialized
deriving DecidableEq

/-- The `NewsRetrievalPipeline` object: `self.vectorstore` starts as `None`
and is bound by `create_vectorstore` / `load_vectorstore`. -/
structure NewsRetrievalPipeline where
  vectorstore : Option Vectorstore := none

/-- `NewsRetrievalPipeline.query`: raise if no vector store is bound,
otherwise delegate to `similarity_search`. -/
def NewsRetrievalPipeline.query (p : NewsRetrievalPipeline) (query_text : String)
    (k : Nat) : Except PipelineError (List LCDocument) :=
  match p.vectorstore with
  | none => Except.error PipelineError.notInitialized
  | some vs => Except.ok (vs.similarity_search query_text k)

/-! ## Sample data used by witnesses and counterexamples -/

/-- Sample metadata, mirroring the spec's end-to-end scenario. -/
def sampleMetadata : Metadata :=
  { title := "Economia crece 3%"
    description := "El PBI subio"
    link := "https://x/1"
    published := "2025-10-16" }

/-- Second sample metadata. -/
def sampleMetadata2 : Metadata :=
  { title := "Futbol: final hoy"
    description := "El equipo juega esta noche"
    link := "https://x/2"
    published := "2025-10-16" }

/-- A sample stored record with a unit embedding. -/
def sampleRecord : StoredRecord :=
  { id := "article_0"
    document := "Economia crece 3%\nEl PBI subio"
    embedding := [1, 0]
    metadata := sampleMetadata }

/-- A second sample stored record with an orthogonal unit embedding. -/
def sampleRecord2 : StoredRecord :=
  { id := "article_1"
    document := "Futbol: final hoy\nEl equipo juega esta noche"
    embedding := [0, 1]
    metadata := sampleMetadata2 }

/-- A sample two-record collection. -/
def sampleCollection : List StoredRecord :=
  [sampleRecord, sampleRecord2]

/-- A sample query vector. -/
def sampleQuery : List ℚ :=
  [1, 0]

/-! ## Helper lemmas: sign-preserving squares and the similarity key -/

theorem sgnSq_strictMono : StrictMono sgnSq := by
  intro s t h
  unfold sgnSq
  split_ifs with hs ht ht
  · exact pow_lt_pow_left₀ h hs two_ne_zero
  · exact absurd (hs.trans h.le) ht
  · have hs' : s < 0 := lt_of_not_le hs
    have h0 : 0 < s ^ 2 := by nlinarith
    have h1 : -(s ^ 2) < 0 := by linarith
    exact lt_of_lt_of_le h1 (sq_nonneg t)
  · have hs' : s < 0 := lt_of_not_le hs
    have ht' : t < 0 := lt_of_not_le ht
    have h2 : (-t) ^ 2 < (-s) ^ 2 :=
      pow_lt_pow_left₀ (by linarith) (by linarith) two_ne_zero
    have h3 : t ^ 2 < s ^ 2 := by simpa using h2
    linarith

theorem simKey_cast (q e : List ℚ) (hq : 0 < normSq q) (he : 0 < normSq e) :
    ((simKey q e : ℚ) : ℝ) = ((normSq q : ℚ) : ℝ) * sgnSq (cosineSim e q) := by
  have hA : (0 : ℝ) < ((normSq e : ℚ) : ℝ) := by exact_mod_cast he
  have hQ : (0 : ℝ) < ((normSq q : ℚ) : ℝ) := by exact_mod_cast hq
  have hsA : (0 : ℝ) < Real.sqrt ((normSq e : ℚ) : ℝ) := Real.sqrt_pos.mpr hA
  have hsQ : (0 : ℝ) < Real.sqrt ((normSq q : ℚ) : ℝ) := Real.sqrt_pos.mpr hQ
  unfold simKey cosineSim sgnSq
  by_cases hx : 0 ≤ dot e q
  · rw [if_pos hx]
    have hX : (0 : ℝ) ≤ ((dot e q : ℚ) : ℝ) := by exact_mod_cast hx
    rw [if_pos (div_nonneg hX (mul_nonneg hsA.le hsQ.le))]
    rw [div_pow, mul_pow, Real.sq_sqrt hA.le, Real.sq_sqrt hQ.le]
    push_cast
    field_simp
    ring
  · rw [if_neg hx]
    have hX : ((dot e q : ℚ) : ℝ) < 0 := by exact_mod_cast lt_of_not_le hx
    have hcos : ((dot e q : ℚ) : ℝ) /
        (Real.sqrt ((normSq e : ℚ) : ℝ) * Real.sqrt ((normSq q : ℚ) : ℝ)) < 0 :=
      div_neg_of_neg_of_pos hX (mul_pos hsA hsQ)
    rw [if_neg (not_le.mpr hcos)]
    rw [div_pow, mul_pow, Real.sq_sqrt hA.le, Real.sq_sqrt hQ.le]
    push_cast
    field_simp
    ring

theorem simKey_le_iff (q a b : List ℚ) (hq : 0 < normSq q) (ha : 0 < normSq a)
    (hb : 0 < normSq b) :
    simKey q a ≤ simKey q b ↔ cosineSim a q ≤ cosineSim b q := by
  have h : simKey q a ≤ simKey q b ↔
      ((simKey q a : ℚ) : ℝ) ≤ ((simKey q b : ℚ) : ℝ) := by
    exact_mod_cast Iff.rfl
  rw [h, simKey_cast q a hq ha, simKey_cast q b hq hb,
    mul_le_mul_left (by exact_mod_cast hq)]
  exact sgnSq_strictMono.le_iff_le

theorem simKey_eq_iff (q a b : List ℚ) (hq : 0 < normSq q) (ha : 0 < normSq a)
    (hb : 0 < normSq b) :
    simKey q a = simKey q b ↔ cosineSim a q = cosineSim b q := by
  have h : simKey q a = simKey q b ↔
      ((simKey q a : ℚ) : ℝ) = ((simKey q b : ℚ) : ℝ) := by
    exact_mod_cast Iff.rfl
  rw [h, simKey_cast q a hq ha, simKey_cast q b hq hb,
    mul_right_inj' (by positivity)]
  exact sgnSq_strictMono.injective.eq_iff

/-! ## Helper lemmas: upsert -/

theorem any_id_eq_iff (c : List StoredRecord) (i : String) :
    (c.any (fun s => s.id = i)) = true ↔ i ∈ ids c := by
  simp [ids, List.any_eq_true, List.mem_map]

theorem ids_map_replace (c : List StoredRecord) (r : StoredRecord) :
    ids (c.map (fun s => if s.id = r.id then r else s)) = ids c := by
  unfold ids
  rw [List.map_map]
  refine List.map_congr_left ?_
  intro s hs
  by_cases h : s.id = r.id
  · simp [h]
  · simp [h]

theorem mem_ids_upsertOne (c : List StoredRecord) (r : StoredRecord) :
    r.id ∈ ids (upsertOne c r) := by
  unfold upsertOne
  split_ifs with h
  · rw [ids_map_replace]
    exact (any_id_eq_iff c r.id).mp h
  · unfold ids
    simp

theorem length_upsertOne_of_mem (c : List StoredRecord) (r : StoredRecord)
    (h : r.id ∈ ids c) : (upsertOne c r).length = c.length := by
  have hc := (any_id_eq_iff c r.id).mpr h
  simp [upsertOne, hc]

theorem nodup_ids_upsertOne (c : List StoredRecord) (r : StoredRecord)
    (h : (ids c).Nodup) : (ids (upsertOne c r)).Nodup := by
  unfold upsertOne
  split_ifs with hc
  · rw [ids_map_replace]
    exact h
  · have hr : r.id ∉ ids c := fun hmem => hc ((any_id_eq_iff c r.id).mpr hmem)
    unfold ids
    rw [List.map_append]
    rw [List.nodup_append]
    refine ⟨h, List.nodup_singleton _, ?_⟩
    intro x hx hmem
    simp only [List.map_cons, List.map_nil, List.mem_singleton] at hmem
    exact hr (hmem ▸ hx)

theorem find?_map_replace (c : List StoredRecord) (r : StoredRecord)
    (h : r.id ∈ ids c) :
    (c.map (fun s => if s.id = r.id then r else s)).find?
      (fun s => s.id = r.id) = some r := by
  induction c with
  | nil => simp [ids] at h
  | cons s cs ih =>
    by_cases hs : s.id = r.id
    · rw [List.map_cons, if_pos hs, List.find?_cons_of_pos _ (by simp)]
    · have h' : r.id ∈ ids cs := by
        simp only [ids, List.map_cons, List.mem_cons] at h
        rcases h with h | h
        · exact absurd h.symm hs
        · exact h
      rw [List.map_cons, if_neg hs, List.find?_cons_of_neg _ (by simp [hs])]
      exact ih h'

theorem findById_append_single (c : List StoredRecord) (r : StoredRecord)
    (h : r.id ∉ ids c) : findById (c ++ [r]) r.id = some r := by
  unfold findById
  induction c with
  | nil => simp
  | cons s cs ih =>
    have hs : ¬ s.id = r.id := by
      intro he
      exact h (by simp [ids, he])
    rw [List.cons_append, List.find?_cons_of_neg _ (by simp [hs])]
    exact ih (fun hm => h (by simp [ids] at hm ⊢; exact Or.inr hm))

theorem findById_upsertOne (c : List StoredRecord) (r : StoredRecord) :
    findById (upsertOne c r) r.id = some r := by
  unfold upsertOne
  split_ifs with hc
  · exact find?_map_replace c r ((any_id_eq_iff c r.id).mp hc)
  · exact findById_append_single c r (fun hm => hc ((any_id_eq_iff c r.id).mpr hm))

theorem add_documents_collection (r : NewsRetriever) (d : EmbeddedArticle) :
    (r.add_documents [d]).collection = upsertOne r.collection (recordOf 0 d) := rfl

/-! ## Claim theorems -/

/-- C1: upsert is idempotent and keyed by id — ingesting `[d]` twice gives the
same positional id both times, so the second call leaves `document_count`
unchanged, the stored record under that id is the (second call's) record built
from `d`, and starting from a collection with no duplicate ids, neither call
introduces a duplicate id. -/
theorem C1_upsert_idempotent (r : NewsRetriever) (d : EmbeddedArticle)
    (h : (ids r.collection).Nodup) :
    ((r.add_documents [d]).add_documents [d]).document_count =
        (r.add_documents [d]).document_count
  ∧ findById ((r.add_documents [d]).add_documents [d]).collection
      (positionalId 0) = some (recordOf 0 d)
  ∧ (ids (r.add_documents [d]).collection).Nodup
  ∧ (ids ((r.add_documents [d]).add_documents [d]).collection).Nodup := by
  refine ⟨?_, ?_, ?_, ?_⟩
  · show (upsertOne (upsertOne r.collection (recordOf 0 d)) (recordOf 0 d)).length =
      (upsertOne r.collection (recordOf 0 d)).length
    exact length_upsertOne_of_mem _ _ (mem_ids_upsertOne _ _)
  · show findById (upsertOne (upsertOne r.collection (recordOf 0 d))
      (recordOf 0 d)) (positionalId 0) = some (recordOf 0 d)
    exact findById_upsertOne _ _
  · exact nodup_ids_upsertOne _ _ h
  · exact nodup_ids_upsertOne _ _ (nodup_ids_upsertOne _ _ h)

/-- Witness for C1 at the fresh retriever and a concrete one-field article. -/
theorem C1_upsert_idempotent_witness :
    (ids freshRetriever.collection).Nodup
  ∧ (((freshRetriever.add_documents [({ embedding := [1] } : EmbeddedArticle)]).add_documents
        [({ embedding := [1] } : EmbeddedArticle)]).document_count =
        (freshRetriever.add_documents [({ embedding := [1] } : EmbeddedArticle)]).document_count
    ∧ findById ((freshRetriever.add_documents
          [({ embedding := [1] } : EmbeddedArticle)]).add_documents
          [({ embedding := [1] } : EmbeddedArticle)]).collection
        (positionalId 0) = some (recordOf 0 ({ embedding := [1] } : EmbeddedArticle))
    ∧ (ids (freshRetriever.add_documents
        [({ embedding := [1] } : EmbeddedArticle)]).collection).Nodup
    ∧ (ids ((freshRetriever.add_documents
        [({ embedding := [1] } : EmbeddedArticle)]).add_documents
        [({ embedding := [1] } : EmbeddedArticle)]).collection).Nodup) :=
  ⟨by simp [freshRetriever, ids],
    C1_upsert_idempotent freshRetriever ({ embedding := [1] } : EmbeddedArticle)
      (by simp [freshRetriever, ids])⟩

/-- C4: without explicit ids, ingestion assigns the positional id
`article_{idx}` to each batch position, so two separate single-document
ingestion calls both use id `article_0`: the second call overwrites the first
record and `document_count` stays 1. -/
theorem C4_positional_id_collision (d₁ d₂ : EmbeddedArticle) :
    (freshRetriever.add_documents [d₁]).document_count = 1
  ∧ ((freshRetriever.add_documents [d₁]).add_documents [d₂]).document_count = 1
  ∧ ((freshRetriever.add_documents [d₁]).add_documents [d₂]).collection =
      [recordOf 0 d₂]
  ∧ ∀ (arts : List EmbeddedArticle),
      ids (batchRecords arts) = (List.range arts.length).map positionalId := by
  have h1 : (freshRetriever.add_documents [d₁]).collection = [recordOf 0 d₁] := by
    simp [freshRetriever, NewsRetriever.add_documents, batchRecords, upsert, upsertOne]
  have h2 : ((freshRetriever.add_documents [d₁]).add_documents [d₂]).collection =
      [recordOf 0 d₂] := by
    rw [add_documents_collection, h1]
    simp [upsertOne, recordOf]
  refine ⟨?_, ?_, h2, ?_⟩
  · show (freshRetriever.add_documents [d₁]).collection.length = 1
    rw [h1]
    rfl
  · show ((freshRetriever.add_documents [d₁]).add_documents [d₂]).collection.length = 1
    rw [h2]
    rfl
  · intro arts
    calc ids (batchRecords arts)
        = arts.enum.map (fun p => positionalId p.1) := by
          unfold ids batchRecords
          rw [List.map_map]
          rfl
      _ = (arts.enum.map Prod.fst).map positionalId := by
          rw [List.map_map]
          rfl
      _ = (List.range arts.length).map positionalId := by rw [List.enum_map_fst]

/-- C7 counterexample: the stats dictionary of a concrete retriever does not
have the key set `{collection_name, document_count, storage_location}` the
claim states — its third key is `persist_directory`. -/
theorem C7_stats_keys_counterexample :
    (freshRetriever.get_collection_stats).map Prod.fst ≠
      ["collection_name", "document_count", "storage_location"] := by
  simp [NewsRetriever.get_collection_stats, freshRetriever]

/-- C7 (amended): `get_collection_stats` returns a snapshot dictionary with
exactly the keys `collection_name`, `document_count` and `persist_directory`
(not `storage_location`), where `document_count` is the current number of
stored records. -/
theorem C7_stats_shape (r : NewsRetriever) :
    r.get_collection_stats =
      [("collection_name", StatValue.str r.collection_name),
       ("document_count", StatValue.nat r.document_count),
       ("persist_directory", StatValue.str r.persist_directory)]
  ∧ (r.get_collection_stats).map Prod.fst =
      ["collection_name", "document_count", "persist_directory"] :=
  ⟨rfl, rfl⟩

/-- C9 counterexample: at a concrete single-article call the value returned by
`add_documents` is `None`, not the count `1` of documents ingested. -/
theorem C9_no_return_count :
    freshRetriever.add_documents_return [({ embedding := [1] } : EmbeddedArticle)] ≠
      some ([({ embedding := [1] } : EmbeddedArticle)].length) := by
  simp [NewsRetriever.add_documents_return]

/-- C9 (amended): `add_documents` returns `None`, not the ingested count; it
builds and upserts exactly one record per input document (the batch has the
length of the input sequence). -/
theorem C9_ingest_upserts_batch (r : NewsRetriever) (arts : List EmbeddedArticle) :
    r.add_documents_return arts = none
  ∧ (batchRecords arts).length = arts.length
  ∧ (r.add_documents arts).collection = upsert r.collection (batchRecords arts) := by
  refine ⟨rfl, ?_, rfl⟩
  simp [batchRecords]

/-- C10: `analyze_corpus_tokens` is total; on the empty list every statistic is
0 (no division by zero, no empty `min`/`max`), and on a non-empty list the
average is the real quotient `total_tokens / num_articles` and `min`/`max`
fold over the non-empty token-count list. -/
theorem C10_corpus_tokens_total (encode : String → List Nat) :
    analyze_corpus_tokens encode [] =
      { num_articles := 0, total_tokens := 0, avg_tokens := 0,
        min_tokens := 0, max_tokens := 0, token_counts := [] }
  ∧ (∀ (a : Article) (arts : List Article),
      (analyze_corpus_tokens encode (a :: arts)).avg_tokens =
        ((analyze_corpus_tokens encode (a :: arts)).total_tokens : ℚ) /
          ((analyze_corpus_tokens encode (a :: arts)).num_articles : ℚ))
  ∧ (∀ (a : Article) (arts : List Article),
      (analyze_corpus_tokens encode (a :: arts)).min_tokens =
        (arts.map (fun x => (analyze_article_tokens encode x).total_tokens)).foldl
          min (analyze_article_tokens encode a).total_tokens)
  ∧ (∀ (a : Article) (arts : List Article),
      (analyze_corpus_tokens encode (a :: arts)).max_tokens =
        (arts.map (fun x => (analyze_article_tokens encode x).total_tokens)).foldl
          max (analyze_article_tokens encode a).total_tokens) := by
  refine ⟨rfl, ?_, fun a arts => rfl, fun a arts => rfl⟩
  intro a arts
  simp [analyze_corpus_tokens]

/-- C5: a query before any vector store is bound fails with the
not-initialized error (the source's `ValueError`, named `NotInitializedError`
by the spec) and in particular never returns an `ok` result — callers can
distinguish "no index yet" from "index empty". -/
theorem C5_not_initialized (p : NewsRetrievalPipeline) (t : String) (k : Nat)
    (h : p.vectorstore = none) :
    p.query t k = Except.error PipelineError.notInitialized
  ∧ ∀ docs : List LCDocument, p.query t k ≠ Except.ok docs := by
  have hq : p.query t k = Except.error PipelineError.notInitialized := by
    unfold NewsRetrievalPipeline.query
    rw [h]
  exact ⟨hq, fun docs => by simp [hq]⟩

/-- Witness for C5 at a concrete uninitialized pipeline. -/
theorem C5_not_initialized_witness :
    (⟨none⟩ : NewsRetrievalPipeline).vectorstore = none
  ∧ ((⟨none⟩ : NewsRetrievalPipeline).query "economia" 5 =
        Except.error PipelineError.notInitialized
    ∧ ∀ docs : List LCDocument,
        (⟨none⟩ : NewsRetrievalPipeline).query "economia" 5 ≠ Except.ok docs) :=
  ⟨rfl, C5_not_initialized ⟨none⟩ "economia" 5 rfl⟩

/-- C3: batch embedding equals scalar embedding — position by position, the
embedding attached by `embed_articles` is exactly `embed_text` applied to that
article's `f"{title}\n{description}"` text, and the output has one entry per
input article. -/
theorem C3_batch_eq_scalar (e : NewsEmbedder) (articles : List Article) :
    (e.embed_articles articles).map EmbeddedArticle.embedding =
      articles.map (fun a =>
        e.embed_text ((a.title.getD "") ++ "\n" ++ (a.description.getD "")))
  ∧ (e.embed_articles articles).length = articles.length := by
  constructor
  · induction articles with
    | nil => rfl
    | cons a as ih =>
      simpa [NewsEmbedder.embed_articles, NewsEmbedder.encodeBatch,
        NewsEmbedder.embed_text] using ih
  · simp [NewsEmbedder.embed_articles, NewsEmbedder.encodeBatch]

/-! ## Helper lemmas: the ranked query -/

theorem pairwise_queryRanked (coll : List StoredRecord) (q : List ℚ) (k : Nat) :
    (queryRanked coll q k).Pairwise (rankLe q) :=
  List.Pairwise.sublist (List.take_sublist k _)
    (List.sorted_insertionSort (rankLe q) coll.enum)

theorem mem_enum_of_mem_queryRanked {coll : List StoredRecord} {q : List ℚ} {k : Nat}
    {p : Nat × StoredRecord} (h : p ∈ queryRanked coll q k) : p ∈ coll.enum :=
  (List.mem_insertionSort (rankLe q)).mp (List.mem_of_mem_take h)

theorem getElem?_of_mem_queryRanked {coll : List StoredRecord} {q : List ℚ} {k : Nat}
    {p : Nat × StoredRecord} (h : p ∈ queryRanked coll q k) : coll[p.1]? = some p.2 :=
  List.mk_mem_enum_iff_getElem?.mp (mem_enum_of_mem_queryRanked h)

theorem snd_mem_of_mem_queryRanked {coll : List StoredRecord} {q : List ℚ} {k : Nat}
    {p : Nat × StoredRecord} (h : p ∈ queryRanked coll q k) : p.2 ∈ coll :=
  List.getElem?_mem (getElem?_of_mem_queryRanked h)

theorem nodup_fst_queryRanked (coll : List StoredRecord) (q : List ℚ) (k : Nat) :
    ((queryRanked coll q k).map Prod.fst).Nodup := by
  have hperm : (List.insertionSort (rankLe q) coll.enum).Perm coll.enum :=
    List.perm_insertionSort _ _
  have h1 : ((List.insertionSort (rankLe q) coll.enum).map Prod.fst).Nodup :=
    ((hperm.map Prod.fst).nodup_iff).mpr (List.nodup_enum_map_fst coll)
  exact h1.sublist ((List.take_sublist k _).map Prod.fst)

/-- C2: `query(vector, k)` returns stored records ranked by descending cosine
similarity `dot(a,b)/(norm(a)·norm(b))` to the query vector (for nonzero
vectors): positions earlier in the result have greater-or-equal cosine
similarity; equal-similarity ties are ordered by strictly increasing insertion
index; each returned entry's index is its insertion position in the
collection; and the result of a repeated call with the same state is
identical (the query is a pure function of collection and vector). -/
theorem C2_query_ranking (coll : List StoredRecord) (q : List ℚ) (k : Nat)
    (hq : 0 < normSq q) (hc : ∀ s ∈ coll, 0 < normSq s.embedding) :
    (∀ (i j : Nat) (hi : i < (queryRanked coll q k).length)
        (hj : j < (queryRanked coll q k).length), i < j →
        cosineSim ((queryRanked coll q k)[j]).2.embedding q ≤
          cosineSim ((queryRanked coll q k)[i]).2.embedding q)
  ∧ (∀ (i j : Nat) (hi : i < (queryRanked coll q k).length)
        (hj : j < (queryRanked coll q k).length), i < j →
        cosineSim ((queryRanked coll q k)[i]).2.embedding q =
          cosineSim ((queryRanked coll q k)[j]).2.embedding q →
        ((queryRanked coll q k)[i]).1 < ((queryRanked coll q k)[j]).1)
  ∧ (∀ p ∈ queryRanked coll q k, coll[p.1]? = some p.2)
  ∧ queryCollection coll q k = (queryRanked coll q k).map Prod.snd
  ∧ queryCollection coll q k = queryCollection coll q k := by
  have hget := List.pairwise_iff_getElem.mp (pairwise_queryRanked coll q k)
  have hmem : ∀ (i : Nat) (hi : i < (queryRanked coll q k).length),
      0 < normSq ((queryRanked coll q k)[i]).2.embedding := by
    intro i hi
    exact hc _ (snd_mem_of_mem_queryRanked (List.getElem_mem hi))
  refine ⟨?_, ?_, fun p hp => getElem?_of_mem_queryRanked hp, rfl, rfl⟩
  · intro i j hi hj hij
    rcases hget i j hi hj hij with hlt | ⟨heq, _⟩
    · exact (simKey_le_iff q _ _ hq (hmem j hj) (hmem i hi)).mp hlt.le
    · exact ((simKey_eq_iff q _ _ hq (hmem i hi) (hmem j hj)).mp heq).ge
  · intro i j hi hj hij hcos
    have hkey : simKey q ((queryRanked coll q k)[i]).2.embedding =
        simKey q ((queryRanked coll q k)[j]).2.embedding :=
      (simKey_eq_iff q _ _ hq (hmem i hi) (hmem j hj)).mpr hcos
    have hle : ((queryRanked coll q k)[i]).1 ≤ ((queryRanked coll q k)[j]).1 := by
      rcases hget i j hi hj hij with hlt | ⟨_, hle⟩
      · rw [hkey] at hlt
        exact absurd hlt (lt_irrefl _)
      · exact hle
    have hne : ((queryRanked coll q k)[i]).1 ≠ ((queryRanked coll q k)[j]).1 := by
      intro he
      have hnd := nodup_fst_queryRanked coll q k
      have hi' : i < ((queryRanked coll q k).map Prod.fst).length := by simpa using hi
      have hj' : j < ((queryRanked coll q k).map Prod.fst).length := by simpa using hj
      have hieq : (⟨i, hi'⟩ : Fin ((queryRanked coll q k).map Prod.fst).length) =
          ⟨j, hj'⟩ :=
        (List.Nodup.get_inj_iff hnd).mp (by simpa using he)
      exact absurd (congrArg Fin.val hieq) (Nat.ne_of_lt hij)
    exact lt_of_le_of_ne hle hne

/-- Witness for C2 at a concrete two-record collection and query vector. -/
theorem C2_query_ranking_witness :
    (0 < normSq sampleQuery ∧ ∀ s ∈ sampleCollection, 0 < normSq s.embedding)
  ∧ ((∀ (i j : Nat) (hi : i < (queryRanked sampleCollection sampleQuery 2).length)
        (hj : j < (queryRanked sampleCollection sampleQuery 2).length), i < j →
        cosineSim ((queryRanked sampleCollection sampleQuery 2)[j]).2.embedding
            sampleQuery ≤
          cosineSim ((queryRanked sampleCollection sampleQuery 2)[i]).2.embedding
            sampleQuery)
    ∧ (∀ (i j : Nat) (hi : i < (queryRanked sampleCollection sampleQuery 2).length)
        (hj : j < (queryRanked sampleCollection sampleQuery 2).length), i < j →
        cosineSim ((queryRanked sampleCollection sampleQuery 2)[i]).2.embedding
            sampleQuery =
          cosineSim ((queryRanked sampleCollection sampleQuery 2)[j]).2.embedding
            sampleQuery →
        ((queryRanked sampleCollection sampleQuery 2)[i]).1 <
          ((queryRanked sampleCollection sampleQuery 2)[j]).1)
    ∧ (∀ p ∈ queryRanked sampleCollection sampleQuery 2,
        sampleCollection[p.1]? = some p.2)
    ∧ queryCollection sampleCollection sampleQuery 2 =
        (queryRanked sampleCollection sampleQuery 2).map Prod.snd
    ∧ queryCollection sampleCollection sampleQuery 2 =
        queryCollection sampleCollection sampleQuery 2) :=
  ⟨⟨by simp [sampleQuery, normSq, dot], by
      intro s hs
      rcases List.mem_cons.mp hs with rfl | hs'
      · simp [sampleRecord, normSq, dot]
      · rcases List.mem_cons.mp hs' with rfl | h
        · simp [sampleRecord2, normSq, dot]
        · simp at h⟩,
    C2_query_ranking sampleCollection sampleQuery 2
      (by simp [sampleQuery, normSq, dot])
      (by
        intro s hs
        rcases List.mem_cons.mp hs with rfl | hs'
        · simp [sampleRecord, normSq, dot]
        · rcases List.mem_cons.mp hs' with rfl | h
          · simp [sampleRecord2, normSq, dot]
          · simp at h)⟩

/-- C6: `query(vector, k)` returns exactly `min k document_count` results —
never more than `k`, exactly `document_count` when `k` exceeds it, and the
empty sequence (not an error) on an empty collection; the dataframe view has
the same length. -/
theorem C6_k_truncation (c : List StoredRecord) (q : List ℚ) (k : Nat) :
    (queryCollection c q k).length = min k c.length
  ∧ queryCollection [] q k = []
  ∧ (query_to_dataframe c q k).length = min k c.length := by
  have h1 : (queryCollection c q k).length = min k c.length := by
    simp [queryCollection, queryRanked, List.length_take, List.length_insertionSort]
  exact ⟨h1, by simp [queryCollection, queryRanked], by simp [query_to_dataframe, h1]⟩

/-- C8 counterexample: at a concrete query the returned row has the keys
`title, description, link, date_published` only — the claim's `score` field is
not present in any row. -/
theorem C8_no_score_column :
    (query_to_dataframe [sampleRecord] [1] 1).map (fun row => row.map Prod.fst) =
      [["title", "description", "link", "date_published"]]
  ∧ ∀ row ∈ query_to_dataframe [sampleRecord] [1] 1, ¬ ∃ p ∈ row, p.1 = "score" := by
  exact ⟨rfl, by decide⟩

/-- C8 (amended): `query_to_dataframe` shapes each match into a row with
exactly the fields `title, description, link, date_published`; the similarity
score is not included in the rows. -/
theorem C8_row_shape (c : List StoredRecord) (q : List ℚ) (k : Nat) :
    ∀ row ∈ query_to_dataframe c q k,
      row.map Prod.fst = ["title", "description", "link", "date_published"]
      ∧ ¬ ∃ p ∈ row, p.1 = "score" := by
  intro row hrow
  obtain ⟨r, _, rfl⟩ := List.mem_map.mp hrow
  exact ⟨rfl, by simp [rowOf]⟩

/-- Witness for C8 (amended) at a concrete singleton collection. -/
theorem C8_row_shape_witness :
    rowOf sampleMetadata ∈ query_to_dataframe [sampleRecord] [1] 1
  ∧ ((rowOf sampleMetadata).map Prod.fst =
        ["title", "description", "link", "date_published"]
    ∧ ¬ ∃ p ∈ rowOf sampleMetadata, p.1 = "score") :=
  ⟨by decide, C8_row_shape [sampleRecord] [1] 1 (rowOf sampleMetadata) (by decide)⟩

end NewsQuery
